import Mathlib

/-!
Verification of the toolkami gemini client (`src/clients/gemini_client.py`).

The file shallowly embeds the client's core pieces:

* `truncate_text_both_ends` — the output-truncation helper (Python strings
  are modelled as `List Char`, Python's floor-division slicing is made
  explicit);
* `retryableRun` — the `retryable` decorator's wrapper loop, with the wrapped
  operation's behaviour, and the truthiness of `self.connect()`'s result,
  supplied as oracles;
* `processRound` — one iteration of the `while True:` loop in
  `MCPClient.inlined_process_query_recursive`, with the model call, the
  remote tool endpoint and the clarification prompt supplied as oracles;
* `cleanup` — `MCPClient.cleanup`'s effect on the handle fields;
* `Reach` — the states of the conversation log reachable through the
  chat loop driving `inlined_process_query_recursive`.

Python exceptions are modelled with `Except`, carrying the state at the
point the exception escapes.
-/

namespace GeminiClient

/-! ## Python value and slicing primitives -/

/-- A Python value as returned by `retryable`-wrapped functions: either a
boolean (`connect` returns `True`) or a string (the terminal error
messages). -/
inductive PyVal where
  | bool (b : Bool)
  | str (s : String)
  deriving DecidableEq, Repr

/-- Python truthiness for the values above: a string is truthy iff
non-empty. -/
def PyVal.truthy : PyVal → Bool
  | .bool b => b
  | .str s => s ≠ ""

/-- Python slice `s[i:]` on a string modelled as `List Char`: a negative
index counts from the end (clamped at 0), a non-negative one from the
start (clamped at the length). -/
def pySliceFrom (s : List Char) (i : Int) : List Char :=
  if i < 0 then s.drop ((s.length + i).toNat) else s.drop i.toNat

/-- Python slice `s[:j]` for non-negative `j`. -/
def pySliceTo (s : List Char) (j : Nat) : List Char :=
  s.take j

/-- Python `str.strip()`: remove leading and trailing whitespace. -/
def pyStrip (s : String) : String :=
  ⟨((s.data.dropWhile Char.isWhitespace).reverse.dropWhile Char.isWhitespace).reverse⟩

/-! ## `truncate_text_both_ends` (gemini_client.py lines 144-148)

`text[-max_length//2:]`: Python parses this as `text[(-max_length)//2:]`
and `//` is floor division, so the start index is `Int.fdiv (-max_length) 2`,
i.e. `-⌈max_length/2⌉`. -/

/-- The function `truncate_text_both_ends(text, max_length)` from the source. -/
def truncate_text_both_ends (text : List Char) (max_length : Nat := 250) : List Char :=
  if text.length ≤ max_length then
    text
  else
    pySliceTo text (max_length / 2) ++ ['.', '.', '.']
      ++ pySliceFrom text (Int.fdiv (-(max_length : Int)) 2)

/-! ## The `retryable` decorator (gemini_client.py lines 97-142)

The wrapped operation is an oracle `op : Nat → CallOutcome α` giving the
behaviour of its `k`-th call (0-based): return a value, raise one of the
`connection_errors`, or raise some other exception.  `connectRes : Nat → PyVal`
gives the value returned by the `k`-th `await self.connect()` made by the
wrapper (its truthiness is all the wrapper inspects).  The wrapper itself
never raises: every path returns a value, modelled as `PyVal` (the success
value of the claims below is `Bool`, as for `connect`; we keep the result
generic in `α` embedded into `RetryResult`). -/

/-- Behaviour of one call of the wrapped operation. -/
inductive CallOutcome (α : Type) where
  | success (v : α)
  | connErr (msg : String)
  | otherErr (msg : String)
  deriving Repr

/-- What the `retryable` wrapper returns: the wrapped function's value, or
one of the three terminal error strings. -/
inductive RetryResult (α : Type) where
  | value (v : α)
  | errStr (s : String)
  deriving DecidableEq, Repr

/-- Statistics observable from outside: how often the wrapped operation and
`self.connect()` were called. -/
structure RetryStats where
  opCalls : Nat
  connectCalls : Nat
  deriving DecidableEq, Repr

/-- The `while True:` loop of `retryable`'s `wrapper`, at attempt counter
`retries` having already made `opIdx` operation calls and `connIdx`
reconnect calls.  Recursion is on `max_retries - retries`: the loop repeats
only when `retries + 1 < max_retries` after incrementing. -/
def retryLoop (operation_name : String) (max_retries : Nat)
    (op : Nat → CallOutcome α) (connectRes : Nat → PyVal)
    (retries opIdx connIdx : Nat) : RetryResult α × RetryStats :=
  match op opIdx with
  | .success v => (.value v, ⟨opIdx + 1, connIdx⟩)
  | .otherErr e =>
      (.errStr s!"Error processing {operation_name}: {e}", ⟨opIdx + 1, connIdx⟩)
  | .connErr e =>
      let newRetries := retries + 1
      if h : max_retries ≤ newRetries then
        (.errStr s!"{operation_name} failed after {newRetries} attempts: {e}",
          ⟨opIdx + 1, connIdx⟩)
      else
        if (connectRes connIdx).truthy then
          retryLoop operation_name max_retries op connectRes newRetries (opIdx + 1) (connIdx + 1)
        else
          (.errStr s!"Reconnect failed for {operation_name}", ⟨opIdx + 1, connIdx + 1⟩)
  termination_by max_retries - retries
  decreasing_by omega

/-- A call of the `retryable(max_retries, delay)`-wrapped operation
`operation_name`. -/
def retryableRun (operation_name : String) (max_retries : Nat)
    (op : Nat → CallOutcome α) (connectRes : Nat → PyVal) : RetryResult α × RetryStats :=
  retryLoop operation_name max_retries op connectRes 0 0 0

/-- The method `MCPClient.connect` is `retryable(max_retries=5, delay=1)` applied to a
body that returns `True` on success and re-raises the connection failure
otherwise (gemini_client.py lines 191-200).  Its result as a `PyVal`. -/
def connectRun (body : Nat → CallOutcome Bool) (connectRes : Nat → PyVal) : PyVal :=
  match (retryableRun "connect" 5 body connectRes).1 with
  | .value b => .bool b
  | .errStr s => .str s

/-- The guard in `main` (gemini_client.py line 395): `sys.exit(1)` runs iff
`not await client.connect()`, i.e. iff `connect`'s result is falsy. -/
def mainRunsExit1 (connectResult : PyVal) : Bool :=
  !connectResult.truthy

/-! ## Conversation data model (the `types.Content` values the client builds)

Every `add_content` in `inlined_process_query_recursive` wraps exactly one
part; tool arguments are modelled as association lists of strings, tool
results (`str(tool_result)`) and text as strings. -/

/-- A part stored in the conversation history. -/
inductive Part where
  | text (s : String)
  | functionCall (name : String) (args : List (String × String))
  | functionResponse (name : String) (payload : String)
  deriving DecidableEq, Repr

/-- One history entry (`types.Content`): a role and its parts. -/
structure Content where
  role : String
  parts : List Part
  deriving DecidableEq, Repr

/-- A part of the model's response candidate.  The dispatch in the for-loop
only distinguishes `part.function_call` truthy from text. -/
inductive RespPart where
  | text (s : String)
  | functionCall (name : String) (args : List (String × String))
  deriving DecidableEq, Repr

/-- The `candidate.content.parts` of the first response candidate.  An absent
`content` is `none`; `parts = []` models both an absent and an empty parts
list (`not candidate.content.parts` is true for both). -/
structure Candidate where
  content : Option (List RespPart)
  deriving DecidableEq, Repr

/-- A `generate_content` failure, as inspected by the handler
(`e.error.code`). -/
structure GenError where
  code : Nat
  deriving DecidableEq, Repr

/-- An exception escaping the query loop. -/
inductive QueryExc where
  /-- The `Exception("Token limit exceeded. Forgetting history?")` raised when
  `e.error.code == 400`. -/
  | tokenLimit
  /-- a re-raised `generate_content` error with another code. -/
  | genError (code : Nat)
  /-- An `AttributeError`: `candidate.content` is `None`, and after logging the
  code still evaluates `candidate.content.parts`. -/
  | attrNone
  /-- An `anyio.ClosedResourceError` raised by `mcp_session.call_tool` (the one
  exception `chat_loop` catches and recovers from). -/
  | closedResource
  /-- any other exception raised by `mcp_session.call_tool`. -/
  | toolError (msg : String)
  /-- A `KeyError`: `function_call.args['question']` with no such key. -/
  | keyError
  deriving DecidableEq, Repr

/-- The mutable client state the query loop touches, together with the
observables the claims speak about: the remote tool invocations made, the
clarification prompts shown, and the `save_history` calls. -/
structure LoopState where
  log : List Content
  toolCalls : List (String × List (String × String))
  prompts : Nat
  saves : Nat
  deriving DecidableEq, Repr

/-- The synthetic continuation text appended after a processed part
(gemini_client.py line 346). -/
def nudgeText : String :=
  "Continue with the next needful action or if it starts to get repetitive, use the 'think' tool to figure out next action or how to make it better."

/-- The synthetic user-role nudge entry. -/
def nudgeEntry : Content := ⟨"user", [.text nudgeText]⟩

/-- A user-role text entry. -/
def userTextEntry (s : String) : Content := ⟨"user", [.text s]⟩

/-! ## One part of the for-loop (gemini_client.py lines 283-348)

`callTool` is the remote endpoint (`mcp_session.call_tool`), which may
raise; `answers` gives the user's clarification answer to an `ask` with the
given arguments.  An exception carries the state at the point it escapes. -/

/-- Process one part of the candidate: the body of
`for part in candidate.content.parts`. -/
def processPart (callTool : String → List (String × String) → Except QueryExc String)
    (answers : List (String × String) → String)
    (st : LoopState) : RespPart → Except (QueryExc × LoopState) LoopState
  | .functionCall n args =>
      -- append the model-role function-call entry, then invoke the tool
      let st1 : LoopState :=
        { st with log := st.log ++ [⟨"model", [.functionCall n args]⟩],
                  toolCalls := st.toolCalls ++ [(n, args)] }
      match callTool n args with
      | .error e => .error (e, st1)
      | .ok payload =>
        -- append the user-role function-response entry
        let st2 : LoopState :=
          { st1 with log := st1.log ++ [⟨"user", [.functionResponse n payload]⟩] }
        if n = "ask" then
          match args.lookup "question" with
          | none => .error (.keyError, st2)
          | some _q =>
            -- prompt the user, append the answer, save, append the nudge
            let st3 : LoopState :=
              { st2 with prompts := st2.prompts + 1,
                         log := st2.log ++ [userTextEntry (answers args)] }
            .ok { st3 with saves := st3.saves + 1, log := st3.log ++ [nudgeEntry] }
        else
          .ok { st2 with saves := st2.saves + 1, log := st2.log ++ [nudgeEntry] }
  | .text s =>
      if (pyStrip s).length = 0 then
        -- `continue`: skips the append, the save and the nudge
        .ok st
      else
        let st1 : LoopState := { st with log := st.log ++ [⟨"model", [.text s]⟩] }
        .ok { st1 with saves := st1.saves + 1, log := st1.log ++ [nudgeEntry] }

/-- Process the candidate's parts in order, stopping at the first escaping
exception. -/
def processParts (callTool : String → List (String × String) → Except QueryExc String)
    (answers : List (String × String) → String)
    (st : LoopState) : List RespPart → Except (QueryExc × LoopState) LoopState
  | [] => .ok st
  | p :: ps =>
      match processPart callTool answers st p with
      | .error e => .error e
      | .ok st' => processParts callTool answers st' ps

/-- One iteration of the `while True:` loop (lines 242-348): the model call
(`gen`), the candidate inspection, and the parts loop.  `.ok` means the
iteration fell through to the next round. -/
def processRound (gen : Except GenError Candidate)
    (callTool : String → List (String × String) → Except QueryExc String)
    (answers : List (String × String) → String)
    (st : LoopState) : Except (QueryExc × LoopState) LoopState :=
  match gen with
  | .error e =>
      if e.code = 400 then .error (.tokenLimit, st) else .error (.genError e.code, st)
  | .ok cand =>
      match cand.content with
      | none =>
          -- "[ERROR] No content received" is printed, then
          -- `candidate.content.parts` raises AttributeError on None
          .error (.attrNone, st)
      | some parts =>
          if parts = [] then
            -- "[ERROR] No parts received", then `continue`
            .ok st
          else
            processParts callTool answers st parts

/-- The start of `inlined_process_query_recursive` for a non-empty query:
append the user query to the history (line 235). -/
def submitQuery (st : LoopState) (q : String) : LoopState :=
  { st with log := st.log ++ [userTextEntry q] }

/-- How `chat_loop` (lines 359-380) reacts to an exception escaping
`inlined_process_query_recursive`. -/
inductive DriverAction where
  /-- On `except anyio.ClosedResourceError`: reconnect and resubmit the query. -/
  | reconnectAndResubmit
  /-- On `except (EOFError, KeyboardInterrupt)`: break out cleanly. -/
  | exitCleanly
  /-- not caught: the exception escapes `chat_loop` and the driver stops. -/
  | propagate
  deriving DecidableEq, Repr

/-- The dispatch of `chat_loop` for exceptions raised by the query
loop: only `anyio.ClosedResourceError` is caught and recovered from. -/
def chatLoopHandles : QueryExc → DriverAction
  | .closedResource => .reconnectAndResubmit
  | _ => .propagate

/-! ## Reachable conversation states

`Reach phase st` holds when the chat loop driving
`inlined_process_query_recursive` can be at `phase` with client state `st`:
`idle` at the prompt (or about to resubmit after a caught
`ClosedResourceError`), `inQuery` inside the query loop, `dead` after an
uncaught exception (final cleanup; no further appends).  The model-call,
tool and answer oracles of each round are arbitrary. -/

/-- Driver phase. -/
inductive Phase where
  | idle
  | inQuery
  | dead
  deriving DecidableEq, Repr

/-- The initial client state: empty history, nothing invoked. -/
def initState : LoopState := ⟨[], [], 0, 0⟩

/-- Reachability of client states through the chat loop. -/
inductive Reach : Phase → LoopState → Prop where
  | start : Reach .idle initState
  | submit (q : String) (st : LoopState) : q ≠ "" → Reach .idle st →
      Reach .inQuery (submitQuery st q)
  | stepOk (gen : Except GenError Candidate)
      (callTool : String → List (String × String) → Except QueryExc String)
      (answers : List (String × String) → String) (st st' : LoopState) :
      Reach .inQuery st → processRound gen callTool answers st = .ok st' →
      Reach .inQuery st'
  | stepClosed (gen : Except GenError Candidate)
      (callTool : String → List (String × String) → Except QueryExc String)
      (answers : List (String × String) → String) (st st' : LoopState) :
      Reach .inQuery st →
      processRound gen callTool answers st = .error (.closedResource, st') →
      Reach .idle st'
  | stepFatal (gen : Except GenError Candidate)
      (callTool : String → List (String × String) → Except QueryExc String)
      (answers : List (String × String) → String) (st st' : LoopState)
      (e : QueryExc) :
      Reach .inQuery st →
      processRound gen callTool answers st = .error (e, st') →
      chatLoopHandles e = .propagate →
      Reach .dead st'

/-- Reachability along executions in which no round raises: only successful
rounds (including the continue-on-empty-parts ones) occur. -/
inductive ReachClean : Phase → LoopState → Prop where
  | start : ReachClean .idle initState
  | submit (q : String) (st : LoopState) : q ≠ "" → ReachClean .idle st →
      ReachClean .inQuery (submitQuery st q)
  | stepOk (gen : Except GenError Candidate)
      (callTool : String → List (String × String) → Except QueryExc String)
      (answers : List (String × String) → String) (st st' : LoopState) :
      ReachClean .inQuery st → processRound gen callTool answers st = .ok st' →
      ReachClean .inQuery st'

/-! ## The call/result alignment invariant (spec §3, §8) -/

/-- The tool names of the function-call parts of a model-role entry. -/
def modelCallNames (c : Content) : List String :=
  if c.role = "model" then
    c.parts.filterMap fun p =>
      match p with
      | .functionCall n _ => some n
      | _ => none
  else []

/-- Does the entry carry a function-response part for tool `n`? -/
def hasResultFor (n : String) (c : Content) : Bool :=
  c.parts.any fun p =>
    match p with
    | .functionResponse m _ => m == n
    | _ => false

/-- The invariant: whenever an entry carrying a model function call has a
successor, that successor carries a matching function result (so nothing —
in particular no other model-role entry — can come between a call and its
result). -/
def callsMatched : List Content → Bool
  | [] => true
  | c :: rest =>
      (match rest with
       | [] => true
       | c' :: _ => (modelCallNames c).all fun n => hasResultFor n c') &&
      callsMatched rest

/-- The last entry (if any) carries no model function call. -/
def noPendingCall (log : List Content) : Bool :=
  match log.getLast? with
  | none => true
  | some c => (modelCallNames c).isEmpty

/-- A log that satisfies the invariant and has no dangling trailing call. -/
def closedLog (log : List Content) : Bool :=
  callsMatched log && noPendingCall log

/-! ## `MCPClient.cleanup` (gemini_client.py lines 202-211)

The handle fields, and whether `exit_stack.aclose()` raises, modelled
explicitly; handles are opaque `Nat`s.  The four `= None` assignments run
only if `aclose()` returns. -/

/-- The transport's handle fields and stop flag. -/
structure TransportFields where
  mcp_session_ctx : Option Nat
  mcp_session : Option Nat
  sse_stream_ctx : Option Nat
  sse_stream : Option Nat
  stop_event : Bool
  deriving DecidableEq, Repr

/-- The method `cleanup()`: set the stop event, `await exit_stack.aclose()` (which may
raise, propagating), then clear the four handle fields. -/
def cleanup (acloseRaises : Bool) (st : TransportFields) :
    Except (String × TransportFields) TransportFields :=
  let st1 : TransportFields := { st with stop_event := true }
  if acloseRaises then
    .error ("exit_stack.aclose failed", st1)
  else
    .ok { st1 with mcp_session_ctx := none, mcp_session := none,
                   sse_stream_ctx := none, sse_stream := none }

/-- All four handle fields are cleared. -/
def handlesCleared (st : TransportFields) : Bool :=
  st.mcp_session_ctx == none && st.mcp_session == none &&
  st.sse_stream_ctx == none && st.sse_stream == none

/-! ## Helper lemmas: the terminal error strings are non-empty -/

theorem errProcessing_ne_empty (a b : String) : s!"Error processing {a}: {b}" ≠ "" := by
  intro h
  apply_fun String.length at h
  simp [String.length_append] at h
  exact absurd h.1.1.1.1 (by decide)

theorem failedAfter_ne_empty (a b : String) (n : Nat) :
    s!"{a} failed after {n} attempts: {b}" ≠ "" := by
  intro h
  apply_fun String.length at h
  simp [String.length_append] at h
  exact absurd h.1.1.1.1.2 (by decide)

theorem reconnectFailed_ne_empty (a : String) : s!"Reconnect failed for {a}" ≠ "" := by
  intro h
  apply_fun String.length at h
  simp [String.length_append] at h
  exact absurd h.1.1 (by decide)

/-! ## Helper lemmas about the retry loop -/

/-- Every terminal error string the wrapper can return is non-empty (hence
truthy in Python). -/
theorem retryLoop_errStr_ne_empty {α : Type} (name : String) (mr : Nat)
    (op : Nat → CallOutcome α) (cr : Nat → PyVal) :
    ∀ r oi ci s, (retryLoop name mr op cr r oi ci).1 = .errStr s → s ≠ "" := by
  have key : ∀ f r, mr - r ≤ f →
      ∀ oi ci s, (retryLoop name mr op cr r oi ci).1 = .errStr s → s ≠ "" := by
    intro f
    induction f with
    | zero =>
        intro r hf oi ci s h
        rw [retryLoop] at h
        rcases hop : op oi with v | e | e <;> rw [hop] at h
        · simp at h
        · simp only at h
          split at h
          · simp at h
            exact h ▸ failedAfter_ne_empty name e (r + 1)
          · omega
        · simp at h
          exact h ▸ errProcessing_ne_empty name e
    | succ f ih =>
        intro r hf oi ci s h
        rw [retryLoop] at h
        rcases hop : op oi with v | e | e <;> rw [hop] at h
        · simp at h
        · simp only at h
          split at h
          · simp at h
            exact h ▸ failedAfter_ne_empty name e (r + 1)
          · split at h
            · exact ih (r + 1) (by omega) _ _ _ h
            · simp at h
              exact h ▸ reconnectFailed_ne_empty name
        · simp at h
          exact h ▸ errProcessing_ne_empty name e
  intro r
  exact key (mr - r) r (Nat.le_refl _)

/-- If the wrapped operation raises a recoverable error on every call and
every reconnect result is truthy, the wrapper makes exactly `max_retries - r`
further operation calls and returns the terminal failure string naming the
operation and the attempt count. -/
theorem retryLoop_all_connErr {α : Type} (name msg : String) (N : Nat) (cr : Nat → PyVal)
    (hcr : ∀ k, (cr k).truthy = true) :
    ∀ r oi ci, r < N →
      retryLoop (α := α) name N (fun _ => .connErr msg) cr r oi ci =
        (.errStr s!"{name} failed after {N} attempts: {msg}",
          ⟨oi + (N - r), ci + (N - r - 1)⟩) := by
  have key : ∀ f r, N - r ≤ f → r < N → ∀ oi ci,
      retryLoop (α := α) name N (fun _ => .connErr msg) cr r oi ci =
        (.errStr s!"{name} failed after {N} attempts: {msg}",
          ⟨oi + (N - r), ci + (N - r - 1)⟩) := by
    intro f
    induction f with
    | zero => intro r hf hr oi ci; omega
    | succ f ih =>
        intro r hf hr oi ci
        rw [retryLoop]
        simp only
        split
        · next hle =>
            have hEq : r + 1 = N := by omega
            have h1 : N - r = 1 := by omega
            rw [hEq, h1]
            simp
        · next hlt =>
            rw [hcr ci]
            simp only [if_true]
            rw [ih (r + 1) (by omega) (by omega) (oi + 1) (ci + 1)]
            have h2 : oi + 1 + (N - (r + 1)) = oi + (N - r) := by omega
            have h3 : ci + 1 + (N - (r + 1) - 1) = ci + (N - r - 1) := by omega
            rw [h2, h3]
  intro r oi ci hr
  exact key (N - r) r (Nat.le_refl _) hr oi ci

/-- If the wrapped operation raises a recoverable error on every call, the
wrapper never returns the operation's value: some terminal error string
comes back, whatever the reconnect results are. -/
theorem retryLoop_all_connErr_errStr {α : Type} (name msg : String) (mr : Nat)
    (cr : Nat → PyVal) :
    ∀ r oi ci, ∃ s,
      (retryLoop (α := α) name mr (fun _ => .connErr msg) cr r oi ci).1 = .errStr s := by
  have key : ∀ f r, mr - r ≤ f → ∀ oi ci, ∃ s,
      (retryLoop (α := α) name mr (fun _ => .connErr msg) cr r oi ci).1 = .errStr s := by
    intro f
    induction f with
    | zero =>
        intro r hf oi ci
        rw [retryLoop]
        simp only
        split
        · exact ⟨_, rfl⟩
        · omega
    | succ f ih =>
        intro r hf oi ci
        rw [retryLoop]
        simp only
        split
        · exact ⟨_, rfl⟩
        · split
          · exact ih (r + 1) (by omega) _ _
          · exact ⟨_, rfl⟩
  intro r
  exact key (mr - r) r (Nat.le_refl _)

/-! ## Claims about the retry combinator and the process exit status -/

/-- C2 (code bug): when every connection attempt raises a recoverable
connection error — the scenario in which the initial connection fails after
all retries — `MCPClient.connect` returns a non-empty (hence truthy) error
string, so `main`'s guard `if not await client.connect()` is false and
`sys.exit(1)` never runs, whatever the nested reconnect results are: the
process does not exit with a non-zero status. -/
theorem connect_failure_never_exits_nonzero (msg : String) (cr : Nat → PyVal) :
    mainRunsExit1 (connectRun (fun _ => .connErr msg) cr) = false := by
  obtain ⟨s, hs⟩ := retryLoop_all_connErr_errStr (α := Bool) "connect" msg 5 cr 0 0 0
  have hne : s ≠ "" := retryLoop_errStr_ne_empty "connect" 5 _ cr 0 0 0 s hs
  unfold mainRunsExit1 connectRun retryableRun
  rw [hs]
  simp [PyVal.truthy, hne]

/-- C3 (code bug): an operation raises a recoverable error on its first
call; the reconnection attempt via `MCPClient.connect` itself fails
(returning the terminal failure string `"connect failed after 5 attempts:
boom"`).  The combinator nevertheless treats the truthy string as a
successful reconnect and retries the operation — it is called a second
time and the combinator returns its value — instead of stopping
immediately with a terminal failure. -/
theorem retry_after_failed_reconnect :
    connectRun (fun _ => .connErr "boom") (fun _ => .bool true) =
        .str "connect failed after 5 attempts: boom" ∧
    retryableRun (α := Bool) "call_tool" 5
        (fun k => if k = 0 then .connErr "reset" else .success true)
        (fun _ => connectRun (fun _ => .connErr "boom") (fun _ => .bool true)) =
      (.value true, ⟨2, 1⟩) := by
  have hconn : connectRun (fun _ => .connErr "boom") (fun _ => .bool true) =
      .str "connect failed after 5 attempts: boom" := by
    simp [connectRun, retryableRun, retryLoop, PyVal.truthy]
    decide
  refine ⟨hconn, ?_⟩
  rw [hconn]
  simp [retryableRun, retryLoop, PyVal.truthy]

/-- C4 (confirmed): with `max_retries = N ≥ 1`, an operation that raises a
recoverable error on every call, and reconnection available (every
reconnect result truthy), the combinator calls the operation exactly `N`
times and then returns — it never raises — the terminal failure string
carrying the operation's name and the attempt count `N`. -/
theorem retry_bound_exact (α : Type) (name msg : String) (N : Nat) (cr : Nat → PyVal)
    (hN : 1 ≤ N) (hcr : ∀ k, (cr k).truthy = true) :
    retryableRun (α := α) name N (fun _ => .connErr msg) cr =
      (.errStr s!"{name} failed after {N} attempts: {msg}", ⟨N, N - 1⟩) := by
  unfold retryableRun
  rw [retryLoop_all_connErr name msg N cr hcr 0 0 0 (by omega)]
  simp

/-- Witness for C4 at `N = 3`: the operation is called exactly 3 times and
the terminal failure string names the operation and the attempt count. -/
theorem retry_bound_exact_witness :
    1 ≤ 3 ∧
    retryableRun (α := Bool) "call_tool" 3 (fun _ => .connErr "reset")
        (fun _ => .bool true) =
      (.errStr "call_tool failed after 3 attempts: reset", ⟨3, 2⟩) := by
  refine ⟨by decide, ?_⟩
  rw [retry_bound_exact Bool "call_tool" "reset" 3 (fun _ => .bool true) (by decide)
    (fun k => rfl)]
  decide

/-! ## Claims about `cleanup` -/

/-- C9 (counterexample): a `cleanup()` call during which
`exit_stack.aclose()` raises leaves every handle field set: starting from a
transport holding four handles, the exception propagates and all four
fields still hold their handles, so it is not the case that after every
call the handle fields are cleared. -/
theorem cleanup_exception_keeps_handles :
    cleanup true ⟨some 1, some 2, some 3, some 4, false⟩ =
      .error ("exit_stack.aclose failed", ⟨some 1, some 2, some 3, some 4, true⟩) ∧
    handlesCleared ⟨some 1, some 2, some 3, some 4, true⟩ = false :=
  ⟨rfl, rfl⟩

/-- C9 (amended): when `exit_stack.aclose()` returns normally, `cleanup`
clears all four handle fields (and sets the stop event); when `aclose()`
raises, the exception propagates and the handle fields keep their previous
values — only the stop event is set. -/
theorem cleanup_clears_iff_aclose_returns (st : TransportFields) :
    cleanup false st = .ok ⟨none, none, none, none, true⟩ ∧
    cleanup true st =
      .error ("exit_stack.aclose failed", { st with stop_event := true }) := by
  constructor <;> rfl

/-! ## Claims about `truncate_text_both_ends` -/

/-- Python's `-max_length//2` is floor division of the negation:
`-⌈max_length/2⌉`. -/
theorem fdiv_neg_ofNat_two (m : Nat) :
    Int.fdiv (-(m : Int)) 2 = -(((m + 1) / 2 : Nat) : Int) := by
  rw [Int.fdiv_eq_ediv _ (by decide : (0 : Int) ≤ 2)]
  omega

/-- C10 (counterexample): for `max_length = 5` and the 8-character text
`"abcdefgh"`, the function keeps the first `5/2 = 2` and the last
`⌈5/2⌉ = 3` characters, giving `"ab...fgh"` of length `8 = 5 + 3` — not
`2*(5/2) + 3 = 7` as the claim computes. -/
theorem truncate_text_both_ends_length_claim_false :
    truncate_text_both_ends ['a', 'b', 'c', 'd', 'e', 'f', 'g', 'h'] 5 =
      ['a', 'b', '.', '.', '.', 'f', 'g', 'h'] ∧
    (truncate_text_both_ends ['a', 'b', 'c', 'd', 'e', 'f', 'g', 'h'] 5).length ≠
      2 * (5 / 2) + 3 := by
  decide

/-- C10 (amended): a text of length at most `max_length` is returned
unchanged; a longer text (for `max_length ≥ 1`) is returned as its first
`max_length/2` characters, `"..."`, and its last `⌈max_length/2⌉`
characters, a string of length exactly `max_length + 3` (for even
`max_length` this equals `2*(max_length/2) + 3`; for the default 250 it is
253, strictly greater than `max_length`). -/
theorem truncate_text_both_ends_spec (text : List Char) (max_length : Nat) :
    (text.length ≤ max_length → truncate_text_both_ends text max_length = text) ∧
    (max_length < text.length → 1 ≤ max_length →
      truncate_text_both_ends text max_length =
        text.take (max_length / 2) ++ ['.', '.', '.']
          ++ text.drop (text.length - (max_length + 1) / 2) ∧
      (truncate_text_both_ends text max_length).length = max_length + 3) := by
  constructor
  · intro h
    unfold truncate_text_both_ends
    rw [if_pos h]
  · intro hlt hm
    have hshape : truncate_text_both_ends text max_length =
        text.take (max_length / 2) ++ ['.', '.', '.']
          ++ text.drop (text.length - (max_length + 1) / 2) := by
      unfold truncate_text_both_ends pySliceTo pySliceFrom
      rw [if_neg (by omega), fdiv_neg_ofNat_two]
      rw [if_pos (by omega : -(((max_length + 1) / 2 : Nat) : Int) < 0)]
      have harg : ((text.length : Int) + -(((max_length + 1) / 2 : Nat) : Int)).toNat =
          text.length - (max_length + 1) / 2 := by omega
      rw [harg]
    refine ⟨hshape, ?_⟩
    rw [hshape]
    simp only [List.length_append, List.length_take, List.length_drop, List.length_cons,
      List.length_nil]
    omega

set_option maxRecDepth 4000 in
/-- Witness for C10: both halves at concrete inputs — `"abc"` with
`max_length = 250` is unchanged, and a 300-character text is truncated to
253 characters. -/
theorem truncate_text_both_ends_spec_witness :
    ("abc".toList.length ≤ 250 ∧ truncate_text_both_ends "abc".toList 250 = "abc".toList) ∧
    (250 < (List.replicate 300 'x').length ∧ 1 ≤ 250 ∧
      (truncate_text_both_ends (List.replicate 300 'x') 250).length = 250 + 3) := by
  refine ⟨⟨by decide, (truncate_text_both_ends_spec "abc".toList 250).1 (by decide)⟩,
    ⟨by simp, by decide, ?_⟩⟩
  exact ((truncate_text_both_ends_spec (List.replicate 300 'x') 250).2 (by simp)
    (by decide)).2

/-! ## Claims about the orchestration loop -/

/-- C7 (counterexample): a model call failing with code 400 at a concrete
state aborts the query loop with the token-limit exception, but `chat_loop`
does not catch that exception — it is not `anyio.ClosedResourceError` — so
the driver does not continue reading further queries: the exception
propagates out of `chat_loop`. -/
theorem token_limit_escapes_driver :
    processRound (.error ⟨400⟩) (fun _ _ => .ok "r") (fun _ => "a")
        (submitQuery initState "q") =
      .error (.tokenLimit, submitQuery initState "q") ∧
    chatLoopHandles .tokenLimit = .propagate ∧
    chatLoopHandles .tokenLimit ≠ .reconnectAndResubmit :=
  ⟨rfl, rfl, by decide⟩

/-- C7 (amended): when the model call fails with a client-side code-400
condition, the current query's loop is aborted by raising
`Exception("Token limit exceeded. Forgetting history?")` with the history
unchanged; `chat_loop` catches only `anyio.ClosedResourceError`, so this
exception propagates out of the driver (to the top-level handler) and the
interactive session ends rather than continuing with further queries. -/
theorem token_limit_aborts_query
    (callTool : String → List (String × String) → Except QueryExc String)
    (answers : List (String × String) → String) (st : LoopState) :
    processRound (.error ⟨400⟩) callTool answers st = .error (.tokenLimit, st) ∧
    chatLoopHandles .tokenLimit = .propagate :=
  ⟨rfl, rfl⟩

/-- C8 (code bug): a response whose first candidate has no content makes
the loop raise: after logging "No content received", the code still
evaluates `candidate.content.parts`, an attribute access on `None`, so the
round ends in an `AttributeError` (with nothing appended) instead of
continuing.  The zero-parts half of the claim does hold: content with an
empty parts list logs and continues the loop with nothing appended. -/
theorem no_content_raises_attribute_error
    (callTool : String → List (String × String) → Except QueryExc String)
    (answers : List (String × String) → String) (st : LoopState) :
    processRound (.ok ⟨none⟩) callTool answers st = .error (.attrNone, st) ∧
    processRound (.ok ⟨some []⟩) callTool answers st = .ok st :=
  ⟨rfl, rfl⟩

/-- C5 (counterexample): a model response whose sole function-call part
names `"ask"` — the code calls `mcp_session.call_tool("ask", ...)` like any
other tool before prompting the user, so the remote tool endpoint is
invoked for this name: the resulting `toolCalls` record is non-empty,
contradicting part (a) of the claim. -/
theorem ask_invokes_remote_endpoint :
    processRound (.ok ⟨some [.functionCall "ask" [("question", "X?")]]⟩)
        (fun _ _ => .ok "asked") (fun _ => "Paris") initState =
      .ok ⟨[⟨"model", [.functionCall "ask" [("question", "X?")]]⟩,
            ⟨"user", [.functionResponse "ask" "asked"]⟩,
            ⟨"user", [.text "Paris"]⟩,
            nudgeEntry],
           [("ask", [("question", "X?")])], 1, 1⟩ ∧
    [("ask", [("question", "X?")])] ≠ ([] : List (String × List (String × String))) :=
  ⟨rfl, by decide⟩

/-- C5 (amended): on a model response whose sole function-call part names
the reserved tool `"ask"` with argument `{question: q}`, the loop (a)
*does* invoke the remote tool endpoint for `"ask"` and appends the
function-result entry it returns, then (b) blocks for textual user input,
(c) appends the supplied answer as a user-role text entry, and (d) after
the nudge append the round completes and the loop resumes with the next
model call. -/
theorem ask_round_behaviour (q ans payload : String) (st : LoopState) :
    processRound (.ok ⟨some [.functionCall "ask" [("question", q)]]⟩)
        (fun _ _ => .ok payload) (fun _ => ans) st =
      .ok { st with
            log := st.log ++ [⟨"model", [.functionCall "ask" [("question", q)]]⟩,
                              ⟨"user", [.functionResponse "ask" payload]⟩,
                              userTextEntry ans, nudgeEntry],
            toolCalls := st.toolCalls ++ [("ask", [("question", q)])],
            prompts := st.prompts + 1,
            saves := st.saves + 1 } := by
  simp [processRound, processParts, processPart, List.lookup]

/-- C6 (counterexample): a round whose candidate has two non-empty text
parts appends *two* synthetic nudge entries, one directly after each part —
the first nudge sits between the two model text entries, so it is neither
unique nor positioned after all of the round's part-processing appends. -/
theorem nudge_appended_per_part :
    processRound (.ok ⟨some [.text "a", .text "b"]⟩) (fun _ _ => .ok "r")
        (fun _ => "ans") initState =
      .ok ⟨[⟨"model", [.text "a"]⟩, nudgeEntry, ⟨"model", [.text "b"]⟩, nudgeEntry],
           [], 0, 2⟩ ∧
    List.count nudgeEntry
        [⟨"model", [.text "a"]⟩, nudgeEntry, ⟨"model", [.text "b"]⟩, nudgeEntry] = 2 :=
  ⟨rfl, by decide⟩

/-- The log entries one candidate part contributes in an exception-free
round, `tf` being the tool endpoint's reply and `ans` the user's
clarification answer: a processed part's appends end with one nudge entry;
an empty-text part contributes nothing. -/
def partChunk (tf : String → List (String × String) → String)
    (ans : List (String × String) → String) : RespPart → List Content
  | .text s =>
      if (pyStrip s).length = 0 then [] else [⟨"model", [.text s]⟩, nudgeEntry]
  | .functionCall n args =>
      [⟨"model", [.functionCall n args]⟩, ⟨"user", [.functionResponse n (tf n args)]⟩]
        ++ (if n = "ask" then [userTextEntry (ans args)] else []) ++ [nudgeEntry]

/-- An `"ask"` call part carries a `question` argument (otherwise the code
raises `KeyError`). -/
def askHasQuestion : RespPart → Prop
  | .functionCall n args => n = "ask" → (args.lookup "question").isSome = true
  | .text _ => True

instance : DecidablePred askHasQuestion := fun p => by
  unfold askHasQuestion
  cases p <;> infer_instance

/-- One exception-free part: the appends are exactly the part's chunk. -/
theorem processPart_ok_log (tf : String → List (String × String) → String)
    (ans : List (String × String) → String) (st : LoopState) (p : RespPart)
    (hq : askHasQuestion p) :
    ∃ st', processPart (fun n a => .ok (tf n a)) ans st p = .ok st' ∧
      st'.log = st.log ++ partChunk tf ans p := by
  cases p with
  | text s =>
      by_cases hs : (pyStrip s).length = 0
      · exact ⟨st, by simp [processPart, hs], by simp [partChunk, hs]⟩
      · refine ⟨{ st with
            log := st.log ++ [⟨"model", [.text s]⟩, nudgeEntry],
            saves := st.saves + 1 }, ?_, ?_⟩
        · simp [processPart, hs]
        · simp [partChunk, hs]
  | functionCall n args =>
      by_cases hn : n = "ask"
      · subst hn
        obtain ⟨q, hq'⟩ := Option.isSome_iff_exists.mp (hq rfl)
        refine ⟨{ st with
            log := st.log ++ [⟨"model", [.functionCall "ask" args]⟩,
              ⟨"user", [.functionResponse "ask" (tf "ask" args)]⟩,
              userTextEntry (ans args), nudgeEntry],
            toolCalls := st.toolCalls ++ [("ask", args)],
            prompts := st.prompts + 1,
            saves := st.saves + 1 }, ?_, ?_⟩
        · simp [processPart, hq']
        · simp [partChunk]
      · refine ⟨{ st with
            log := st.log ++ [⟨"model", [.functionCall n args]⟩,
              ⟨"user", [.functionResponse n (tf n args)]⟩, nudgeEntry],
            toolCalls := st.toolCalls ++ [(n, args)],
            saves := st.saves + 1 }, ?_, ?_⟩
        · simp [processPart, hn]
        · simp [partChunk, hn]

/-- Exception-free parts fold: the log grows by the concatenation of the
per-part chunks. -/
theorem processParts_ok_log (tf : String → List (String × String) → String)
    (ans : List (String × String) → String) :
    ∀ (parts : List RespPart) (st : LoopState), (∀ p ∈ parts, askHasQuestion p) →
      ∃ st', processParts (fun n a => .ok (tf n a)) ans st parts = .ok st' ∧
        st'.log = st.log ++ parts.flatMap (partChunk tf ans) := by
  intro parts
  induction parts with
  | nil => exact fun st _ => ⟨st, rfl, by simp⟩
  | cons p ps ih =>
      intro st hq
      obtain ⟨st1, h1, hlog1⟩ := processPart_ok_log tf ans st p (hq p (by simp))
      obtain ⟨st', h2, hlog2⟩ := ih st1 (fun x hx => hq x (by simp [hx]))
      refine ⟨st', ?_, ?_⟩
      · simp [processParts, h1, h2]
      · rw [hlog2, hlog1]
        simp [List.append_assoc]

/-- C6 (amended): in every exception-free round, the loop appends one
synthetic user-role nudge entry after the appends of *each* processed part
(function call or non-empty text) — the nudge `add_content` sits inside
the `for part in ...` loop — and parts whose trimmed text is empty are
skipped entirely, contributing no nudge; so a round appends as many nudges
as it processes parts, interleaved with the part appends, not exactly one
after all of them. -/
theorem nudge_per_processed_part (tf : String → List (String × String) → String)
    (ans : List (String × String) → String) (parts : List RespPart) (st : LoopState)
    (hq : ∀ p ∈ parts, askHasQuestion p) (hne : parts ≠ []) :
    ∃ st', processRound (.ok ⟨some parts⟩) (fun n a => .ok (tf n a)) ans st = .ok st' ∧
      st'.log = st.log ++ parts.flatMap (partChunk tf ans) := by
  obtain ⟨st', h, hlog⟩ := processParts_ok_log tf ans parts st hq
  exact ⟨st', by simp [processRound, hne, h], hlog⟩

/-- Witness for C6: a round with a non-empty text part, an empty text part
and an `ask` call appends one nudge after the text appends and one after
the call's appends, and none for the skipped empty part. -/
theorem nudge_per_processed_part_witness :
    (∀ p ∈ [RespPart.text "hello", RespPart.text "  ",
        RespPart.functionCall "ask" [("question", "X?")]], askHasQuestion p) ∧
    ([RespPart.text "hello", RespPart.text "  ",
        RespPart.functionCall "ask" [("question", "X?")]] ≠ []) ∧
    ∃ st', processRound
        (.ok ⟨some [RespPart.text "hello", RespPart.text "  ",
          RespPart.functionCall "ask" [("question", "X?")]]⟩)
        (fun n a => .ok ((fun _ _ => "asked") n a)) (fun _ => "Paris") initState =
        .ok st' ∧
      st'.log = initState.log ++
        [RespPart.text "hello", RespPart.text "  ",
          RespPart.functionCall "ask" [("question", "X?")]].flatMap
          (partChunk (fun _ _ => "asked") (fun _ => "Paris")) := by
  refine ⟨by decide, by decide, ?_⟩
  exact nudge_per_processed_part (fun _ _ => "asked") (fun _ => "Paris") _ initState
    (by decide) (by decide)

/-! ## The call/result alignment invariant: preservation lemmas -/

theorem modelCallNames_user (parts : List Part) : modelCallNames ⟨"user", parts⟩ = [] := by
  simp [modelCallNames]

theorem modelCallNames_model_call (n : String) (args : List (String × String)) :
    modelCallNames ⟨"model", [.functionCall n args]⟩ = [n] := by
  simp [modelCallNames]

theorem modelCallNames_model_text (s : String) :
    modelCallNames ⟨"model", [.text s]⟩ = [] := by
  simp [modelCallNames]

theorem hasResultFor_self (n p : String) :
    hasResultFor n ⟨"user", [.functionResponse n p]⟩ = true := by
  simp [hasResultFor]

/-- Concatenating two logs that each satisfy the invariant and end without
a dangling call yields such a log again. -/
theorem closedLog_append : ∀ xs ys : List Content,
    closedLog xs = true → closedLog ys = true → closedLog (xs ++ ys) = true := by
  intro xs
  induction xs with
  | nil => intro ys _ hy; simpa using hy
  | cons c xs' ih =>
      intro ys hx hy
      unfold closedLog at hx ⊢
      rw [Bool.and_eq_true] at hx
      obtain ⟨hm, hp⟩ := hx
      rw [Bool.and_eq_true]
      cases xs' with
      | nil =>
          simp only [noPendingCall, List.getLast?_singleton] at hp
          constructor
          · cases ys with
            | nil => simpa using hm
            | cons c' ys' =>
                rw [List.cons_append, List.nil_append, callsMatched]
                unfold closedLog at hy
                rw [Bool.and_eq_true] at hy
                rw [Bool.and_eq_true]
                refine ⟨?_, hy.1⟩
                simp [List.isEmpty_iff.mp hp]
          · cases ys with
            | nil => simpa [noPendingCall] using hp
            | cons c' ys' =>
                unfold closedLog at hy
                rw [Bool.and_eq_true] at hy
                have hys := hy.2
                rw [List.cons_append, List.nil_append]
                rw [noPendingCall] at hys ⊢
                rw [List.getLast?_cons_cons]
                exact hys
      | cons c'' rest =>
          have hm' : callsMatched (c'' :: rest) = true := by
            rw [callsMatched, Bool.and_eq_true] at hm
            exact hm.2
          have hp' : noPendingCall (c'' :: rest) = true := by
            rw [noPendingCall, List.getLast?_cons_cons] at hp
            rw [noPendingCall]
            exact hp
          have hih := ih ys (by rw [closedLog, Bool.and_eq_true]; exact ⟨hm', hp'⟩) hy
          rw [closedLog, Bool.and_eq_true] at hih
          constructor
          · rw [List.cons_append, List.cons_append, callsMatched, Bool.and_eq_true]
            refine ⟨?_, by rw [← List.cons_append]; exact hih.1⟩
            rw [callsMatched, Bool.and_eq_true] at hm
            exact hm.1
          · rw [List.cons_append, noPendingCall]
            cases hcc : (c'' :: rest) ++ ys with
            | nil => exact absurd hcc (by simp)
            | cons d ds =>
                rw [List.getLast?_cons_cons, ← hcc]
                have hih2 := hih.2
                rw [noPendingCall] at hih2
                exact hih2

theorem closedLog_text_chunk (s : String) :
    closedLog [⟨"model", [.text s]⟩, nudgeEntry] = true := by
  simp [closedLog, callsMatched, noPendingCall, nudgeEntry, modelCallNames, hasResultFor]

theorem closedLog_user_singleton (s : String) :
    closedLog [userTextEntry s] = true := by
  simp [closedLog, callsMatched, noPendingCall, userTextEntry, modelCallNames]

theorem closedLog_call_chunk (n payload : String) (args : List (String × String)) :
    closedLog [⟨"model", [.functionCall n args]⟩,
      ⟨"user", [.functionResponse n payload]⟩, nudgeEntry] = true := by
  simp [closedLog, callsMatched, noPendingCall, nudgeEntry, modelCallNames, hasResultFor]

theorem closedLog_ask_chunk (payload a : String) (args : List (String × String)) :
    closedLog [⟨"model", [.functionCall "ask" args]⟩,
      ⟨"user", [.functionResponse "ask" payload]⟩, userTextEntry a, nudgeEntry] = true := by
  simp [closedLog, callsMatched, noPendingCall, nudgeEntry, userTextEntry, modelCallNames,
    hasResultFor]

/-- Whatever the tool endpoint and the user answer, a part-processing step
that returns normally appends a closed chunk to the log. -/
theorem processPart_ok_closed
    (ct : String → List (String × String) → Except QueryExc String)
    (ans : List (String × String) → String) (st : LoopState) (p : RespPart)
    (st₁ : LoopState) (h : processPart ct ans st p = .ok st₁) :
    ∃ tail, st₁.log = st.log ++ tail ∧ closedLog tail = true := by
  cases p with
  | text s =>
      by_cases hs : (pyStrip s).length = 0
      · rw [processPart, if_pos hs] at h
        injection h with h
        subst h
        exact ⟨[], by simp, rfl⟩
      · rw [processPart, if_neg hs] at h
        injection h with h
        refine ⟨[⟨"model", [.text s]⟩, nudgeEntry], ?_, closedLog_text_chunk s⟩
        rw [← h]
        simp
  | functionCall n args =>
      rw [processPart] at h
      cases hct : ct n args with
      | error e => rw [hct] at h; simp at h
      | ok payload =>
          rw [hct] at h
          simp only at h
          by_cases hn : n = "ask"
          · subst hn
            rw [if_pos rfl] at h
            cases hlk : args.lookup "question" with
            | none => rw [hlk] at h; simp at h
            | some q =>
                rw [hlk] at h
                simp only [Except.ok.injEq] at h
                refine ⟨[⟨"model", [.functionCall "ask" args]⟩,
                  ⟨"user", [.functionResponse "ask" payload]⟩,
                  userTextEntry (ans args), nudgeEntry], ?_,
                  closedLog_ask_chunk payload (ans args) args⟩
                rw [← h]
                simp
          · rw [if_neg hn] at h
            simp only [Except.ok.injEq] at h
            refine ⟨[⟨"model", [.functionCall n args]⟩,
              ⟨"user", [.functionResponse n payload]⟩, nudgeEntry], ?_,
              closedLog_call_chunk n payload args⟩
            rw [← h]
            simp

/-- Folding the parts of a round, when it returns normally, appends a
closed chunk to the log. -/
theorem processParts_ok_closed
    (ct : String → List (String × String) → Except QueryExc String)
    (ans : List (String × String) → String) :
    ∀ (parts : List RespPart) (st st' : LoopState),
      processParts ct ans st parts = .ok st' →
      ∃ tail, st'.log = st.log ++ tail ∧ closedLog tail = true := by
  intro parts
  induction parts with
  | nil =>
      intro st st' h
      simp only [processParts, Except.ok.injEq] at h
      exact ⟨[], by simp [← h], rfl⟩
  | cons p ps ih =>
      intro st st' h
      rw [processParts] at h
      cases hpp : processPart ct ans st p with
      | error e => rw [hpp] at h; simp at h
      | ok st₁ =>
          rw [hpp] at h
          simp only at h
          obtain ⟨t1, hl1, hc1⟩ := processPart_ok_closed ct ans st p st₁ hpp
          obtain ⟨t2, hl2, hc2⟩ := ih st₁ st' h
          exact ⟨t1 ++ t2, by rw [hl2, hl1, List.append_assoc],
            closedLog_append t1 t2 hc1 hc2⟩

/-- A round that falls through to the next iteration appends a closed chunk
to the log. -/
theorem processRound_ok_closed (gen : Except GenError Candidate)
    (ct : String → List (String × String) → Except QueryExc String)
    (ans : List (String × String) → String) (st st' : LoopState)
    (h : processRound gen ct ans st = .ok st') :
    ∃ tail, st'.log = st.log ++ tail ∧ closedLog tail = true := by
  cases gen with
  | error e =>
      simp only [processRound] at h
      by_cases hc : e.code = 400 <;> simp [hc] at h
  | ok cand =>
      simp only [processRound] at h
      cases hcon : cand.content with
      | none => rw [hcon] at h; simp at h
      | some parts =>
          rw [hcon] at h
          simp only at h
          by_cases hp : parts = []
          · rw [if_pos hp] at h
            simp only [Except.ok.injEq] at h
            exact ⟨[], by simp [← h], rfl⟩
          · rw [if_neg hp] at h
            exact processParts_ok_closed ct ans parts st st' h

/-- Every state reachable along exception-free executions has a closed log. -/
theorem reachClean_closedLog : ∀ (ph : Phase) (st : LoopState),
    ReachClean ph st → closedLog st.log = true := by
  intro ph st h
  induction h with
  | start => rfl
  | submit q st hq hr ih =>
      simpa [submitQuery] using
        closedLog_append _ _ ih (closedLog_user_singleton q)
  | stepOk gen ct ans st st' hr hstep ih =>
      obtain ⟨tail, hl, hc⟩ := processRound_ok_closed gen ct ans st st' hstep
      rw [hl]
      exact closedLog_append _ _ ih hc

/-- C1 (amended): along every execution of the chat loop in which no round
raises — in particular no tool invocation raises — every reachable
conversation log satisfies the alignment invariant: an entry carrying a
model function call is always immediately followed, when anything follows
it at all, by the matching function-result entry for the same tool name,
so no other model-role entry can be appended in between. -/
theorem calls_matched_of_clean_reach (ph : Phase) (st : LoopState)
    (h : ReachClean ph st) : callsMatched st.log = true := by
  have hc := reachClean_closedLog ph st h
  rw [closedLog, Bool.and_eq_true] at hc
  exact hc.1

/-- Witness for C1: the invariant holds at the concretely reached state
after submitting the query `"hello"`. -/
theorem calls_matched_of_clean_reach_witness :
    ReachClean .inQuery (submitQuery initState "hello") ∧
    callsMatched (submitQuery initState "hello").log = true :=
  have h : ReachClean .inQuery (submitQuery initState "hello") :=
    ReachClean.submit "hello" initState (by decide) ReachClean.start
  ⟨h, calls_matched_of_clean_reach _ _ h⟩

/-- The state reached when a tool invocation raises
`anyio.ClosedResourceError` right after the function-call entry was
appended, and `chat_loop` then reconnects and resubmits the query: the
function-call entry for `list_dir` is followed by the resubmitted user
query text, not by a function-result entry. -/
def danglingCallState : LoopState :=
  ⟨[userTextEntry "list files",
    ⟨"model", [.functionCall "list_dir" [("path", ".")]]⟩,
    userTextEntry "list files"],
   [("list_dir", [("path", ".")])], 0, 0⟩

/-- C1 (counterexample): the claim fails along executions where the tool
invocation raises.  Concretely: the query `"list files"` is submitted; the
model answers with a `list_dir` function call; the loop appends the
model-role function-call entry and then `call_tool` raises
`anyio.ClosedResourceError`; `chat_loop` catches it, reconnects and
resubmits the query, appending the user query text directly after the
dangling function-call entry.  The resulting log is reachable and violates
the invariant: the function-call entry is not followed by a
function-result entry before further entries (and further model-role
entries) are appended. -/
theorem dangling_call_reachable :
    Reach .inQuery danglingCallState ∧ callsMatched danglingCallState.log = false := by
  constructor
  · have h1 : Reach .inQuery (submitQuery initState "list files") :=
      Reach.submit "list files" initState (by decide) Reach.start
    have h2 : Reach .idle
        ⟨[userTextEntry "list files",
          ⟨"model", [.functionCall "list_dir" [("path", ".")]]⟩],
         [("list_dir", [("path", ".")])], 0, 0⟩ :=
      Reach.stepClosed (.ok ⟨some [.functionCall "list_dir" [("path", ".")]]⟩)
        (fun _ _ => .error .closedResource) (fun _ => "") _ _ h1 rfl
    exact Reach.submit "list files" _ (by decide) h2
  · decide

end GeminiClient
